import Mathlib

/-!
Verification of the agent-swarm orchestration core against its specification.

This file gives a shallow embedding, in Lean 4, of the parts of the
`backend/core` Python sources that the specification's claims are about:

* `subagent.py`   — the worker runtime: its cooperative `run` loop, its
  completion decision (`_is_task_complete`, `_check_pending_relay_messages`,
  `_can_complete_with_pending_messages`), intervention ingestion
  (`receive_intervention`, `inject_information`) and the pending-ack set;
* `relay_station.py` — `RelayStationCoordinator.broadcast_message` and
  `broadcast_intervention` (delivery fan-out, importance formula, metadata);
* `master_agent.py` — `broadcast_to_all_agents` (ordering of force ingestion
  versus relay dispatch) and the planning phase of `execute_task`;
* `role_emergence.py` — `_extract_json` and `_parse_response`;
* `direct_agent.py` — `_trim_conversation_history`.

Machine integers do not occur on these paths (Python ints are unbounded);
Python floats used for message importance are modelled as exact rationals,
which is faithful for the comparisons performed here.  Strings are modelled
as Lean `String`, with Python's substring test, slicing and strip spelled
out below.  Asynchronous flag mutation (pause/cancel) is modelled by
schedules giving the flag value observed at each top-of-loop check.
-/

namespace AgentSwarm

/-! ## String helpers: Python `in`, slicing, `strip` -/

/-- Whether `p` is a prefix of `s` (character lists). -/
def listStartsWith : List Char → List Char → Bool
  | [], _ => true
  | _ :: _, [] => false
  | p :: ps, c :: cs => p = c && listStartsWith ps cs

/-- Position of the first occurrence of `pat` in `hay`, as Python `str.find`
    (with `some 0` for the empty pattern). -/
def findSubPos (pat : List Char) : List Char → Option Nat
  | [] => if pat = [] then some 0 else none
  | c :: rest =>
    if listStartsWith pat (c :: rest) then some 0
    else (findSubPos pat rest).map (· + 1)

/-- Python's `pat in hay` on strings. -/
def strContains (hay pat : String) : Bool :=
  (findSubPos pat.data hay.data).isSome

/-- Python's `s[:n]` (slice of the first `n` characters). -/
def strTake (s : String) (n : Nat) : String :=
  String.mk (s.data.take n)

/-- Python's `s[n:]` (drop the first `n` characters). -/
def strDrop (s : String) (n : Nat) : String :=
  String.mk (s.data.drop n)

/-- Python's `s.strip()` (whitespace removed from both ends). -/
def pyStrip (s : String) : String :=
  String.mk (((s.data.dropWhile Char.isWhitespace).reverse.dropWhile Char.isWhitespace).reverse)

/-! ## Enumerations (`core/models.py`) -/

/-- `AgentStatus` from `core/models.py`. -/
inductive AgentStatus
  | pending | planning | running | waitingRelay | relaying
  | completed | failed | paused | cancelled
deriving DecidableEq

/-- `RelayType` from `core/models.py`. -/
inductive RelayType
  | discovery | insight
  | alignmentRequest | alignmentResponse | alignment
  | suggestion | question | confirmation
  | checkpoint | correction | completion
  | humanIntervention
deriving DecidableEq

/-- The wire value of a `RelayType` (the Python enum's `.value`). -/
def RelayType.value : RelayType → String
  | .discovery => "discovery"
  | .insight => "insight"
  | .alignmentRequest => "alignment_request"
  | .alignmentResponse => "alignment_response"
  | .alignment => "alignment"
  | .suggestion => "suggestion"
  | .question => "question"
  | .confirmation => "confirmation"
  | .checkpoint => "checkpoint"
  | .correction => "correction"
  | .completion => "completion"
  | .humanIntervention => "human_intervention"

/-- `InterventionType` from `core/models.py`. -/
inductive InterventionType
  | pause | resume | restart | adjust | inject | cancel
deriving DecidableEq

/-- The wire value of an `InterventionType` (the Python enum's `.value`). -/
def InterventionType.value : InterventionType → String
  | .pause => "pause"
  | .resume => "resume"
  | .restart => "restart"
  | .adjust => "adjust"
  | .inject => "inject"
  | .cancel => "cancel"

/-- `InterventionScope` from `core/models.py`. -/
inductive InterventionScope
  | single | selected | all | broadcast
deriving DecidableEq

/-! ## Relay messages (`core/models.py`) -/

/-- The `metadata` dict of a relay message, restricted to the keys the
    embedded code paths read (`metadata.get(...)` with the defaults applied
    at each use site).  Absent keys are `none` / `false`. -/
structure MessageMetadata where
  interventionId : Option String := none
  interventionType : Option String := none
  scope : Option String := none
  priority : Option Int := none
  requiresAcknowledgement : Bool := false
  stationId : Option String := none
deriving DecidableEq

/-- `RelayMessage` from `core/models.py` (fields that the embedded code
    reads; timestamps are not modelled). -/
structure RelayMessage where
  id : String
  type : RelayType
  sourceAgentId : String
  sourceAgentName : String := ""
  targetAgentIds : List String
  content : String
  importance : ℚ
  metadata : MessageMetadata
  viewedBy : List String := []
deriving DecidableEq

/-! ## Worker completion decision (`subagent.py`) -/

/-- One entry of the `interventions` list inside the pending summary built
    by `_check_pending_relay_messages` (keys `type`, `priority`,
    `content_preview`). -/
structure InterventionSummary where
  type : String
  priority : Int
  contentPreview : String
deriving DecidableEq

/-- The summary dict built by `SubagentRuntime._check_pending_relay_messages`. -/
structure PendingSummary where
  totalCount : Nat
  interventionCount : Nat
  highPriorityCount : Nat
  unacknowledgedCount : Nat
  messageTypes : List String
  interventions : List InterventionSummary
  requiresResponse : Bool
deriving DecidableEq

/-- The per-message accumulation step of the loop in
    `_check_pending_relay_messages` (subagent.py lines 1068-1090). -/
def summaryStep (s : PendingSummary) (msg : RelayMessage) : PendingSummary :=
  let s := { s with messageTypes := s.messageTypes ++ [msg.type.value] }
  let s :=
    if msg.type = RelayType.humanIntervention then
      let itype := msg.metadata.interventionType.getD "unknown"
      let priority := msg.metadata.priority.getD 5
      let s := { s with
        interventionCount := s.interventionCount + 1,
        interventions := s.interventions ++
          [{ type := itype, priority := priority,
             contentPreview := strTake msg.content 100 }] }
      if 7 ≤ priority then
        { s with highPriorityCount := s.highPriorityCount + 1, requiresResponse := true }
      else s
    else s
  if (8 : ℚ)/10 ≤ msg.importance then
    { s with highPriorityCount := s.highPriorityCount + 1 }
  else s

/-- `SubagentRuntime._check_pending_relay_messages`.  The Python code drains
    the inbox queue into a temporary queue and puts everything back, i.e. it
    peeks; here the inbox is an explicit list so the peek is pure. -/
def checkPendingRelayMessages (inbox : List RelayMessage) (pendingAcks : List String) :
    Bool × PendingSummary :=
  let init : PendingSummary :=
    { totalCount := inbox.length, interventionCount := 0, highPriorityCount := 0,
      unacknowledgedCount := pendingAcks.length, messageTypes := [],
      interventions := [], requiresResponse := false }
  let summary := inbox.foldl summaryStep init
  (decide (0 < summary.totalCount) || decide (0 < summary.unacknowledgedCount), summary)

/-- The acknowledgement phrases of rule 5 in
    `_can_complete_with_pending_messages`. -/
def acknowledgementPatterns : List String :=
  ["已收到中继消息", "已整合中继信息", "已考虑人工干预", "已根据干预调整", "收到干预通知", "已确认收到"]

/-- The blocking intervention kinds of rule 4 in
    `_can_complete_with_pending_messages`. -/
def blockingInterventionTypes : List String :=
  [InterventionType.inject.value, InterventionType.adjust.value]

/-- `SubagentRuntime._can_complete_with_pending_messages` (subagent.py
    lines 1100-1162): rules 1-4 block, rule 5 allows on an acknowledgement
    phrase, rule 6 allows a small backlog of ordinary messages. -/
def canCompleteWithPendingMessages (response : String) (s : PendingSummary) : Bool :=
  if 0 < s.highPriorityCount then false
  else if 0 < s.unacknowledgedCount then false
  else if s.requiresResponse then false
  else if s.interventions.any (fun iv => blockingInterventionTypes.contains iv.type) then false
  else if acknowledgementPatterns.any (fun p => strContains response p) then true
  else if s.interventionCount = 0 && s.totalCount ≤ 2 && 500 < response.length then true
  else false

/-- The strict completion markers of `_is_task_complete`. -/
def strictCompletionMarkers : List String :=
  ["[任务完成]", "[TASK_COMPLETE]", "**任务完成**", "## 任务完成"]

/-- The conclusion cues of the loose branch of `_is_task_complete`. -/
def conclusionPatterns : List String :=
  ["综上所述", "总结如下", "最终结论", "分析报告", "完整分析结果"]

/-- `SubagentRuntime._is_task_complete` (subagent.py lines 986-1028). -/
def isTaskComplete (response : String) (inbox : List RelayMessage)
    (pendingAcks : List String) (iterations : Nat) : Bool :=
  let hp := checkPendingRelayMessages inbox pendingAcks
  if hp.1 && !(canCompleteWithPendingMessages response hp.2) then false
  else if strictCompletionMarkers.any (fun m => strContains response m) then true
  else if 3 ≤ iterations then
    (conclusionPatterns.any (fun p => strContains response p)) && 800 < response.length
  else false

/-- `SubagentRuntime._extract_final_result` (subagent.py lines 1164-1174). -/
def extractFinalResult (response : String) : String :=
  match findSubPos "[任务完成]".data response.data with
  | some idx => pyStrip (strDrop response idx)
  | none =>
    match findSubPos "[TASK_COMPLETE]".data response.data with
    | some idx => pyStrip (strDrop response idx)
    | none => response

/-- The disjunction of the four blocking rules (rules 1-4) of
    `_can_complete_with_pending_messages`: a queued high-priority item, a
    non-empty pending-acknowledgement set, a message requiring a response,
    or a queued inject/adjust intervention. -/
def summaryBlocksCompletion (s : PendingSummary) : Bool :=
  decide (0 < s.highPriorityCount) || decide (0 < s.unacknowledgedCount) ||
  s.requiresResponse ||
  s.interventions.any (fun iv => blockingInterventionTypes.contains iv.type)

/-! ## Worker runtime state and operations (`subagent.py`) -/

/-- An entry of the worker's message log (`self.messages`).  Each
    constructor records the role and the exact inputs from which the
    corresponding `_build_*` prompt (or the raw text) is produced; the
    rendered prompt text itself is a pure function of these inputs and is
    not inspected by any claim. -/
inductive LogEntry
  | system
  | userTask
  | assistantText (content : String)
  | interventionPrompt (m : RelayMessage)
  | relayPrompt (m : RelayMessage)
  | pendingBlockedPrompt (s : PendingSummary)
  | continuationPrompt (iteration : Nat) (pending : Option PendingSummary)
  | injectionPrompt (info : String)
deriving DecidableEq

/-- One record of `self._intervention_history` (timestamp not modelled). -/
structure InterventionRecord where
  messageId : String
  interventionType : String
  priority : Int
  contentPreview : String
deriving DecidableEq

/-- The mutable state of a `SubagentRuntime` together with its
    `SubagentState`, restricted to the fields the embedded code writes or
    reads.  `interimResult` is the source's `partial_result` field. -/
structure WorkerState where
  agentId : String
  iterations : Nat
  status : AgentStatus
  messages : List LogEntry
  inbox : List RelayMessage
  pendingAcks : List String
  interventionHistory : List InterventionRecord
  receivedLog : List RelayMessage
  thinking : String
  interimResult : String
  finalResult : Option String
  progress : ℚ
  pausedFlag : Bool
  cancelledFlag : Bool
  injectedInfoCount : Nat
deriving DecidableEq

/-- The state of a freshly constructed `SubagentRuntime` (its `__init__`). -/
def initialWorkerState (agentId : String) : WorkerState :=
  { agentId := agentId, iterations := 0, status := AgentStatus.pending,
    messages := [], inbox := [], pendingAcks := [], interventionHistory := [],
    receivedLog := [], thinking := "", interimResult := "", finalResult := none,
    progress := 0, pausedFlag := false, cancelledFlag := false,
    injectedInfoCount := 0 }

/-- `RelayMessage.mark_viewed` from `core/models.py`. -/
def markViewed (agentId : String) (m : RelayMessage) : RelayMessage :=
  if agentId ∈ m.viewedBy then m
  else { m with viewedBy := m.viewedBy ++ [agentId] }

/-- `SubagentRuntime.receive_relay_message`. -/
def receiveRelayMessage (m : RelayMessage) (s : WorkerState) : WorkerState :=
  let m := markViewed s.agentId m
  { s with inbox := s.inbox ++ [m], receivedLog := s.receivedLog ++ [m] }

/-- `SubagentRuntime.receive_intervention` (subagent.py lines 396-437):
    mark viewed, log receipt, extend the pending-ack set when the message
    requires acknowledgement, record the intervention, then enqueue (with
    an importance bump for `adjust`). -/
def receiveIntervention (m : RelayMessage) (s : WorkerState) : WorkerState :=
  let m := markViewed s.agentId m
  let s := { s with receivedLog := s.receivedLog ++ [m] }
  let s :=
    if m.metadata.requiresAcknowledgement then
      { s with pendingAcks := s.pendingAcks ++ [m.id] }
    else s
  let s := { s with interventionHistory := s.interventionHistory ++
    [({ messageId := m.id,
        interventionType := m.metadata.interventionType.getD "unknown",
        priority := m.metadata.priority.getD 5,
        contentPreview := strTake m.content 100 } : InterventionRecord)] }
  let itype := m.metadata.interventionType.getD ""
  if itype = InterventionType.inject.value then
    { s with inbox := s.inbox ++ [m] }
  else if itype = InterventionType.adjust.value then
    { s with inbox := s.inbox ++ [{ m with importance := max m.importance ((9 : ℚ)/10) }] }
  else
    { s with inbox := s.inbox ++ [m] }

/-- `SubagentRuntime.inject_information` (subagent.py lines 439-469):
    append the emphatic injection prompt to the message log, bypassing the
    inbox, and count the injection. -/
def injectInformation (info : String) (s : WorkerState) : WorkerState :=
  { s with messages := s.messages ++ [LogEntry.injectionPrompt info],
           injectedInfoCount := s.injectedInfoCount + 1 }

/-- The externally invokable operations on a worker (its public methods
    that mutate worker state). -/
inductive WorkerOp
  | receiveRelayMessageOp (m : RelayMessage)
  | receiveInterventionOp (m : RelayMessage)
  | injectInformationOp (info : String)
  | pauseOp
  | resumeOp
  | cancelOp
deriving DecidableEq

/-- Dispatch of a `WorkerOp` to the corresponding method. -/
def applyWorkerOp (op : WorkerOp) (s : WorkerState) : WorkerState :=
  match op with
  | .receiveRelayMessageOp m => receiveRelayMessage m s
  | .receiveInterventionOp m => receiveIntervention m s
  | .injectInformationOp info => injectInformation info s
  | .pauseOp => { s with pausedFlag := true }
  | .resumeOp => { s with pausedFlag := false }
  | .cancelOp => { s with cancelledFlag := true }

/-! ## The worker's cooperative `run` loop (`subagent.py` lines 159-238) -/

/-- Stable insertion used to model Python's stable
    `list.sort(key=lambda m: m.importance, reverse=True)`: an element is
    placed after all already-present elements of importance ≥ its own. -/
def insertDescImportance (m : RelayMessage) : List RelayMessage → List RelayMessage
  | [] => [m]
  | x :: xs =>
    if x.importance < m.importance then m :: x :: xs
    else x :: insertDescImportance m xs

/-- Descending stable sort by importance (see `insertDescImportance`). -/
def sortDescImportance (l : List RelayMessage) : List RelayMessage :=
  l.foldl (fun acc m => insertDescImportance m acc) []

/-- `SubagentRuntime._process_relay_inbox`: drain the inbox, translate
    interventions first (by descending importance) and then regular relay
    messages into user-role log entries. -/
def processRelayInbox (s : WorkerState) : WorkerState :=
  let interventionMsgs := s.inbox.filter (fun m => m.type = RelayType.humanIntervention)
  let regularMsgs := s.inbox.filter (fun m => ¬ m.type = RelayType.humanIntervention)
  { s with inbox := [],
           messages := s.messages
             ++ (sortDescImportance interventionMsgs).map LogEntry.interventionPrompt
             ++ regularMsgs.map LogEntry.relayPrompt }

/-- The environment of one `run` invocation: the worker's configuration
    (`max_iterations`, `relay_enabled`), the final text the LLM produces in
    each iteration (the no-tool-call path of `_execute_iteration`), and the
    values of the asynchronously mutated pause/cancel flags as observed at
    the `t`-th top-of-loop check. -/
structure RunEnv where
  maxIterations : Nat
  relayEnabled : Bool
  responses : Nat → String
  cancelledAt : Nat → Bool
  pausedAt : Nat → Bool

/-- The code that follows the `while` loop of `run`: status `completed`,
    progress 100 (subagent.py lines 222-223).  A `break` out of the loop
    reaches the same code. -/
def finishRun (s : WorkerState) : WorkerState :=
  { s with status := AgentStatus.completed, progress := 100 }

/-- One iteration of the body of `run`'s `while` loop (subagent.py lines
    174-220), for iteration number `iteration` (already incremented).
    Returns the updated state and whether the loop `break`s.  The
    self-triggered relay emission `_check_relay_trigger` mutates only
    `relay_messages_sent`, which no claim reads, and is omitted here. -/
def runIteration (env : RunEnv) (iteration : Nat) (s : WorkerState) :
    WorkerState × Bool :=
  let s := { s with iterations := iteration }
  let s := processRelayInbox s
  let s := { s with progress := min 95 ((iteration : ℚ) / (env.maxIterations : ℚ) * 100) }
  let response := env.responses iteration
  let s := { s with messages := s.messages ++ [LogEntry.assistantText response],
                    thinking := response, interimResult := response }
  if isTaskComplete response s.inbox s.pendingAcks s.iterations then
    let hp := checkPendingRelayMessages s.inbox s.pendingAcks
    if hp.1 && !(canCompleteWithPendingMessages response hp.2) then
      ({ s with messages := s.messages ++ [LogEntry.pendingBlockedPrompt hp.2] }, false)
    else
      ({ s with finalResult := some (extractFinalResult response) }, true)
  else
    let s :=
      if iteration < env.maxIterations - 1 then
        let hp := checkPendingRelayMessages s.inbox s.pendingAcks
        { s with messages := s.messages ++
            [LogEntry.continuationPrompt iteration (if hp.1 then some hp.2 else none)] }
      else s
    (s, false)

/-- The `while` loop of `run`, with `fuel` bounding the number of
    top-of-loop checks (the Python loop suspends while paused, so its
    number of checks is unbounded a priori; `none` means the fuel ran out
    before the loop exited).  `t` counts checks, `iteration` is the loop
    variable. -/
def runAux (env : RunEnv) : Nat → Nat → Nat → WorkerState → Option WorkerState
  | 0, _, _, _ => none
  | fuel + 1, t, iteration, s =>
    if iteration < env.maxIterations && !(env.cancelledAt t) then
      if env.pausedAt t then
        runAux env fuel (t + 1) iteration { s with status := AgentStatus.paused }
      else
        let step := runIteration env (iteration + 1) s
        if step.2 then some (finishRun step.1)
        else runAux env fuel (t + 1) (iteration + 1) step.1
    else some (finishRun s)

/-- `SubagentRuntime.run`: set status `running`, initialize the message
    log (`_init_messages`), then run the loop from iteration 0. -/
def runModel (env : RunEnv) (fuel : Nat) (s : WorkerState) : Option WorkerState :=
  runAux env fuel 0 0
    { s with status := AgentStatus.running,
             messages := [LogEntry.system, LogEntry.userTask] }

/-! ## Human interventions (`core/models.py`) -/

/-- `HumanIntervention` from `core/models.py` (payload restricted to the
    two keys read by the embedded code: `information` and `adjustments`). -/
structure Intervention where
  id : String
  type : InterventionType
  targetAgentId : Option String := none
  targetAgentIds : List String := []
  payloadInformation : Option String := none
  payloadAdjustments : List (String × String) := []
  reason : String := ""
  scope : InterventionScope
  priority : Int := 5
  broadcastToRelay : Bool := true
deriving DecidableEq

/-! ## Relay coordinator (`relay_station.py`) -/

/-- The per-session registration state of `RelayStationCoordinator`:
    `agent_callbacks` keys in insertion order, and the subset of agents
    registered with an `intervention_handler`. -/
structure CoordState where
  registeredAgents : List String := []
  interventionHandlers : List String := []
deriving DecidableEq

/-- `RelayStationCoordinator.register_agent`: a dict assignment, so an
    existing key keeps its position and a new key is appended. -/
def registerAgent (c : CoordState) (agentId : String) (hasInterventionHandler : Bool) :
    CoordState :=
  { registeredAgents :=
      if agentId ∈ c.registeredAgents then c.registeredAgents
      else c.registeredAgents ++ [agentId],
    interventionHandlers :=
      if hasInterventionHandler then
        if agentId ∈ c.interventionHandlers then c.interventionHandlers
        else c.interventionHandlers ++ [agentId]
      else c.interventionHandlers }

/-- `RelayStationCoordinator.unregister_agent`. -/
def unregisterAgent (c : CoordState) (agentId : String) : CoordState :=
  { registeredAgents := c.registeredAgents.filter (fun a => a ≠ agentId),
    interventionHandlers := c.interventionHandlers.filter (fun a => a ≠ agentId) }

/-- The delivery list of `RelayStationCoordinator.broadcast_message`
    (relay_station.py lines 181-194): with empty `target_agent_ids` the
    targets are all registered agents except the sender; then each target
    is delivered to iff it is registered. -/
def broadcastMessageDeliveries (c : CoordState) (message : RelayMessage) : List String :=
  let targetIds :=
    if message.targetAgentIds.isEmpty then
      c.registeredAgents.filter (fun a => a ≠ message.sourceAgentId)
    else message.targetAgentIds
  targetIds.filter (fun a => a ∈ c.registeredAgents)

/-- The `target_ids` computed by `broadcast_intervention` from the
    intervention's scope (relay_station.py lines 265-272). -/
def interventionTargetIds (iv : Intervention) : List String :=
  if iv.scope = InterventionScope.single then
    match iv.targetAgentId with
    | some tid => [tid]
    | none => []
  else if iv.scope = InterventionScope.selected then
    if iv.targetAgentIds.isEmpty then [] else iv.targetAgentIds
  else []

/-- The content body built by `broadcast_intervention` (relay_station.py
    lines 227-263): header lines plus a kind-specific directive. -/
def interventionContent (iv : Intervention) : String :=
  let header := "🚨 **人工干预通知**\n\n**干预类型**: " ++ iv.type.value ++
    "\n**作用范围**: " ++
    (match iv.scope with
     | .single => "single" | .selected => "selected"
     | .all => "all" | .broadcast => "broadcast") ++
    "\n**优先级**: " ++ toString iv.priority ++ "/10" ++
    (if iv.reason ≠ "" then "\n**干预原因**: " ++ iv.reason else "")
  let directive :=
    match iv.type with
    | .inject => "\n\n**注入信息**:\n" ++ (iv.payloadInformation.getD "")
    | .adjust => "\n\n**调整指令**:" ++
        String.join (iv.payloadAdjustments.map (fun kv => "\n- " ++ kv.1 ++ ": " ++ kv.2))
    | .pause => "\n\n**指令**: 暂停当前工作，等待进一步指示"
    | .resume => "\n\n**指令**: 恢复工作，继续之前的任务"
    | .cancel => "\n\n**指令**: 取消当前任务"
    | .restart => "\n\n**指令**: 重新开始任务"
  header ++ directive

/-- The `human_intervention` relay message constructed by
    `broadcast_intervention` (relay_station.py lines 275-291):
    `importance = min(1.0, priority / 10 + 0.3)` and metadata with
    `requires_acknowledgement = True`. -/
def interventionRelayMessage (iv : Intervention) (messageId : String)
    (stationId : Option String) : RelayMessage :=
  { id := messageId,
    type := RelayType.humanIntervention,
    sourceAgentId := "human",
    sourceAgentName := "🧑‍💼 人类操作员",
    targetAgentIds := interventionTargetIds iv,
    content := interventionContent iv,
    importance := min 1 ((iv.priority : ℚ) / 10 + 3/10),
    metadata :=
      { interventionId := some iv.id,
        interventionType := some iv.type.value,
        scope := some (match iv.scope with
          | .single => "single" | .selected => "selected"
          | .all => "all" | .broadcast => "broadcast"),
        priority := some iv.priority,
        requiresAcknowledgement := true,
        stationId := some (stationId.getD "") } }

/-- An observable side effect of the master-level broadcast paths, in the
    order the Python code performs them: a relay delivery of the
    intervention message to one agent (via its intervention handler or its
    plain callback, from `broadcast_intervention`'s dispatch loop), or a
    direct forced ingestion into one agent's message log (the
    `inject_information` calls of `broadcast_to_all_agents`). -/
inductive MasterAction
  | relayDeliver (agentId : String) (viaInterventionHandler : Bool)
  | forceInject (agentId : String)
deriving DecidableEq

/-- Whether a `MasterAction` is a forced ingestion. -/
def MasterAction.isForceInject : MasterAction → Bool
  | .forceInject _ => true
  | _ => false

/-- The dispatch loop of `broadcast_intervention` (relay_station.py lines
    304-322): actual targets are the computed `target_ids`, or all
    registered agents when that list is empty; a registered target is
    delivered to through its intervention handler when one exists, its
    plain callback otherwise; unregistered targets are skipped. -/
def broadcastInterventionDeliveries (c : CoordState) (iv : Intervention) :
    List MasterAction :=
  let targetIds := interventionTargetIds iv
  let actualTargets := if targetIds.isEmpty then c.registeredAgents else targetIds
  actualTargets.filterMap (fun a =>
    if a ∈ c.registeredAgents then
      some (MasterAction.relayDeliver a (a ∈ c.interventionHandlers))
    else none)

/-! ## Master orchestrator: `broadcast_to_all_agents` (`master_agent.py`) -/

/-- `MasterAgent.broadcast_to_all_agents` (master_agent.py lines 918-954),
    as the ordered trace of its observable actions: it first awaits
    `relay_coordinator.broadcast_intervention` (which dispatches the relay
    message to every registered agent) and only afterwards, when
    `force_action` is set, force-injects the message into each active
    subagent.  Returns the method's boolean result and the action trace. -/
def broadcastToAllAgents (activeSubagents : List String) (c : CoordState)
    (message : String) (reason : String) (priority : Int) (forceAction : Bool) :
    Bool × List MasterAction :=
  if activeSubagents.isEmpty then (false, [])
  else
    let iv : Intervention :=
      { id := "iv", type := InterventionType.inject,
        targetAgentIds := activeSubagents,
        payloadInformation := some message,
        reason := if reason = "" then "用户广播了一条消息" else reason,
        scope := if forceAction then InterventionScope.all else InterventionScope.broadcast,
        priority := priority }
    let deliveries := broadcastInterventionDeliveries c iv
    let injects :=
      if forceAction then activeSubagents.map MasterAction.forceInject else []
    (true, deliveries ++ injects)

/-- All force-injections in a trace come before all relay deliveries:
    the ordering that claim C5 asserts for scope `all`. -/
def forceIngestPrecedesDispatch (tr : List MasterAction) : Bool :=
  tr.enum.all (fun ia =>
    match ia.2 with
    | .forceInject _ =>
      tr.enum.all (fun jb =>
        match jb.2 with
        | .relayDeliver _ _ => decide (ia.1 < jb.1)
        | _ => true)
    | _ => true)

/-! ## Planner: JSON extraction and response parsing (`role_emergence.py`) -/

/-- The brace scan of `_extract_json` method 3 (role_emergence.py lines
    595-607): a signed counter, the start index is set on a `{` seen at
    depth 0, and the scan returns the slice when the counter returns to 0
    with a start recorded.  Braces are recognised by code point (123 and
    125). -/
def braceScanAux : List Char → Nat → Int → Option Nat → Option (Nat × Nat)
  | [], _, _, _ => none
  | c :: rest, i, count, start =>
    if c.toNat = 123 then
      let start := if count = 0 then some i else start
      braceScanAux rest (i + 1) (count + 1) start
    else if c.toNat = 125 then
      let count := count - 1
      if count = 0 && start.isSome then some (start.getD 0, i)
      else braceScanAux rest (i + 1) count start
    else braceScanAux rest (i + 1) count start

/-- `RoleEmergenceEngine._extract_json` (role_emergence.py lines 574-614):
    fenced ```json block, then any fenced block starting with a brace, then
    the outermost brace-balanced block, then the stripped text itself when
    it is brace-delimited; otherwise the empty string.  The two regex
    searches are rendered as: text between the first opening fence and the
    next closing fence, stripped. -/
def extractJson (text : String) : String :=
  if pyStrip text = "" then ""
  else
    let cs := text.data
    let method1 :=
      match findSubPos "```json".data cs with
      | some i =>
        let afterOpen := cs.drop (i + 7)
        match findSubPos "```".data afterOpen with
        | some j => some (pyStrip (String.mk (afterOpen.take j)))
        | none => none
      | none => none
    match method1 with
    | some s => if s ≠ "" then s else extractJsonRest cs
    | none => extractJsonRest cs
where
  /-- Methods 2-4 of `_extract_json`. -/
  extractJsonRest (cs : List Char) : String :=
    let method2 :=
      match findSubPos "```".data cs with
      | some i =>
        let afterOpen := cs.drop (i + 3)
        match findSubPos "```".data afterOpen with
        | some j => some (pyStrip (String.mk (afterOpen.take j)))
        | none => none
      | none => none
    match method2 with
    | some s =>
      if (s.data.take 1).any (fun c => c.toNat = 123) then s else extractJsonBrace cs
    | none => extractJsonBrace cs
  /-- Methods 3-4 of `_extract_json`. -/
  extractJsonBrace (cs : List Char) : String :=
    match braceScanAux cs 0 0 none with
    | some se => String.mk ((cs.drop se.1).take (se.2 + 1 - se.1))
    | none =>
      let stripped := pyStrip (String.mk cs)
      if (stripped.data.take 1).any (fun c => c.toNat = 123)
          && (stripped.data.reverse.take 1).any (fun c => c.toNat = 125) then
        stripped
      else ""

/-- One entry of the decoded `roles` array, restricted to the keys the
    parse path inspects for success or failure (`name` and `description`;
    the skill, methodology and prompt fields only shape the built role's
    payload, which no claim reads). -/
structure RoleJson where
  name : Option String := none
  description : Option String := none
deriving DecidableEq

/-- The decoded top-level JSON object of a planner response.  This is the
    output of Python's standard-library `json.loads` on the extracted JSON
    string; `json` is outside the repository, so the decode result enters
    the model as a parameter (`none` models a `JSONDecodeError`). -/
structure JsonPlanData where
  analysis : Option String := none
  roles : List RoleJson := []
  phasesCount : Nat := 0
  estimatedDurationSeconds : Option Int := none
deriving DecidableEq

/-- An `EmergentRole` as built by `_parse_response`, restricted to the
    fields decided by the parse itself. -/
structure BuiltRole where
  name : String
  description : String
deriving DecidableEq

/-- A `TaskPlan` as built by `_parse_response`, restricted to the fields
    the claims read. -/
structure TaskPlanModel where
  originalTask : String
  analysis : String
  emergentRoles : List BuiltRole
  subagentConfigCount : Nat
  relayStationCount : Nat
  estimatedDuration : Int
deriving DecidableEq

/-- The per-role construction of `_parse_response` (role_emergence.py lines
    388-448): a role without a `name` key raises; a missing description
    defaults to the name. -/
def buildRole (r : RoleJson) : Except String BuiltRole :=
  match r.name with
  | none => Except.error "缺少 name 字段"
  | some n => Except.ok { name := n, description := r.description.getD n }

/-- Build all roles, failing on the first role that raises. -/
def buildRoles : List RoleJson → Except String (List BuiltRole)
  | [] => Except.ok []
  | r :: rest =>
    match buildRole r with
    | Except.error e => Except.error e
    | Except.ok b =>
      match buildRoles rest with
      | Except.error e => Except.error e
      | Except.ok bs => Except.ok (b :: bs)

/-- `RoleEmergenceEngine._parse_response` (role_emergence.py lines
    351-484): extract the JSON (raising when nothing is extracted), decode
    it (`decoded` is the `json.loads` outcome, `none` meaning a decode
    error), raise when `roles` is missing or empty, truncate more than 5
    roles to the first 5 (`MAX_ROLES`), build each role, and assemble the
    plan with a default station when no phases are present. -/
def parseResponse (originalTask response : String) (decoded : Option JsonPlanData) :
    Except String TaskPlanModel :=
  let js := extractJson response
  if js = "" then Except.error "无法从响应中提取 JSON"
  else
    match decoded with
    | none => Except.error "JSON 解析失败"
    | some data =>
      if data.roles.isEmpty then Except.error "响应中没有 roles 字段或为空"
      else
        match buildRoles (data.roles.take 5) with
        | Except.error e => Except.error ("解析角色失败: " ++ e)
        | Except.ok roles =>
          Except.ok
            { originalTask := originalTask,
              analysis := data.analysis.getD "任务分析中...",
              emergentRoles := roles,
              subagentConfigCount := roles.length,
              relayStationCount := if data.phasesCount = 0 then 1 else data.phasesCount,
              estimatedDuration := data.estimatedDurationSeconds.getD 300 }

/-! ## Master orchestrator: planning phase of `execute_task`
    (`master_agent.py` lines 159-228, 361-406) -/

/-- The events of `MasterAgent.execute_task` that the planning phase can
    emit (tags mirror the AG-UI event classes). -/
inductive MEvent
  | runStarted
  | textMessageStart (messageId : String)
  | textMessageContent (messageId : String) (delta : String)
  | textMessageEnd (messageId : String)
  | planGenerated (totalAgents : Nat)
  | roleEmerged (name : String)
  | runError (message : String)
deriving DecidableEq

/-- Whether an event is a `run_error` event. -/
def MEvent.isRunError : MEvent → Bool
  | .runError _ => true
  | _ => false

/-- The event stream of `execute_task` through the planning phase, as a
    function of the planner outcome.  `chunks` are the streamed planner
    text deltas (forwarded verbatim as `text_message_content`), and `rest`
    abstracts everything the generator yields after a successful planning
    phase (spawning, parallel execution, integration, `run_finished`);
    on planning failure the generator `return`s right after the
    `text_message_end`, so nothing of `rest` is reached and no `run_error`
    is yielded (master_agent.py lines 210-216, 397-406). -/
def executeTaskPlanningEvents (outcome : Except String TaskPlanModel)
    (chunks : List String) (rest : List MEvent) : List MEvent :=
  [MEvent.runStarted,
   MEvent.textMessageStart "planning",
   MEvent.textMessageContent "planning" "🔍 正在分析任务，规划角色涌现...\n\n"]
  ++ chunks.map (MEvent.textMessageContent "planning")
  ++ (match outcome with
      | Except.error e =>
        [MEvent.textMessageContent "planning" ("\n\n❌ 角色涌现错误: " ++ e ++ "\n"),
         MEvent.textMessageContent "planning" "❌ 角色涌现失败\n",
         MEvent.textMessageEnd "planning"]
      | Except.ok p =>
        (p.emergentRoles.map (fun r => MEvent.roleEmerged r.name))
        ++ [MEvent.textMessageContent "planning"
              ("\n\n✅ 成功涌现 " ++ toString p.emergentRoles.length ++ " 个角色\n"),
            MEvent.textMessageEnd "planning",
            MEvent.planGenerated p.emergentRoles.length]
        ++ rest)

/-- The in-memory `session.status` after `execute_task`'s planning phase:
    it is set to `PLANNING` before planning (master_agent.py line 187) and,
    on planning failure, never updated again before the generator returns.
    `restStatus` is whatever status the post-planning phases would set. -/
def executeTaskSessionStatus (outcome : Except String TaskPlanModel)
    (restStatus : AgentStatus) : AgentStatus :=
  match outcome with
  | Except.error _ => AgentStatus.planning
  | Except.ok _ => restStatus

/-! ## Direct mode: conversation-history trimming (`direct_agent.py`
    lines 486-531) -/

/-- A message of the direct agent's `conversation_history` (role and
    content are the only fields `_trim_conversation_history` reads). -/
structure DMsg where
  role : String
  content : String
deriving DecidableEq

/-- The `round_starts` list: indices of the `user`-role messages. -/
def roundStarts : List DMsg → List Nat
  | [] => []
  | m :: rest =>
    if m.role = "user" then 0 :: (roundStarts rest).map (· + 1)
    else (roundStarts rest).map (· + 1)

/-- The number of user messages, i.e. `len(round_starts)`. -/
def userCount (h : List DMsg) : Nat := (roundStarts h).length

/-- The total character count of the history
    (`sum(len(m.content or "") for m in ...)`). -/
def totalChars (h : List DMsg) : Nat := (h.map (fun m => m.content.length)).sum

/-- The round-count trim of `_trim_conversation_history` (direct_agent.py
    lines 507-513): when there are more than `maxRounds` rounds, keep the
    suffix starting at `round_starts[-maxRounds]`. -/
def trimByRounds (maxRounds : Nat) (h : List DMsg) : List DMsg :=
  let rs := roundStarts h
  if maxRounds < rs.length then h.drop (rs.getD (rs.length - maxRounds) 0)
  else h

/-- `round_starts[1] if len(round_starts) > 1 else len(history)`: the
    start of the second round, used to drop the oldest round. -/
def nextRoundStart (h : List DMsg) : Nat :=
  let rs := roundStarts h
  if 1 < rs.length then rs.getD 1 0 else h.length

/-- The character-budget loop of `_trim_conversation_history`
    (direct_agent.py lines 520-531): while the total character count
    exceeds 24000 and more than two rounds remain, drop the oldest round.
    Termination: each pass drops a non-empty prefix (it starts at the
    second round, whose index is positive). -/
def trimByBudget (h : List DMsg) : List DMsg :=
  if hc : 24000 < totalChars h ∧ 2 < (roundStarts h).length then
    trimByBudget (h.drop (nextRoundStart h))
  else h
termination_by h.length
decreasing_by
  have hr := hc.2
  have tail_pos : ∀ x ∈ (roundStarts h).drop 1, 1 ≤ x := by
    intro x hx
    cases h with
    | nil => simp [roundStarts] at hx
    | cons m rest =>
      have key : ∀ y ∈ ((roundStarts rest).map (· + 1)), 1 ≤ y := by
        intro y hy
        rcases List.mem_map.mp hy with ⟨z, _, rfl⟩
        omega
      by_cases hu : m.role = "user"
      · simp only [roundStarts, if_pos hu, List.drop_succ_cons, List.drop_zero] at hx
        exact key x hx
      · simp only [roundStarts, if_neg hu] at hx
        exact key x (List.mem_of_mem_drop hx)
  have hne : h ≠ [] := by
    intro he
    rw [he] at hr
    simp [roundStarts] at hr
  have hlen : 0 < h.length := List.length_pos.mpr hne
  have hpos : 1 ≤ nextRoundStart h := by
    unfold nextRoundStart
    by_cases h1 : 1 < (roundStarts h).length
    · simp only [if_pos h1]
      obtain ⟨a, rs', ha⟩ : ∃ a rs', roundStarts h = a :: rs' := by
        cases hrs : roundStarts h with
        | nil => rw [hrs] at hr; simp at hr
        | cons a rs' => exact ⟨a, rs', rfl⟩
      obtain ⟨b, rs'', hb⟩ : ∃ b rs'', rs' = b :: rs'' := by
        cases hrs' : rs' with
        | nil => rw [ha, hrs'] at hr; simp at hr
        | cons b rs'' => exact ⟨b, rs'', rfl⟩
      have hbmem : b ∈ (roundStarts h).drop 1 := by
        rw [ha, hb]; simp
      have := tail_pos b hbmem
      rw [ha, hb]
      simpa using this
    · simp only [if_neg h1]
      exact hlen
  have := List.length_drop (nextRoundStart h) h
  omega

/-- `DirectAgent._trim_conversation_history` with its call-site argument
    `max_rounds=6` (direct_agent.py line 397): round-count trim, then
    character-budget trim. -/
def trimConversationHistory (h : List DMsg) : List DMsg :=
  trimByBudget (trimByRounds 6 h)

/-- A response that triggers neither branch of the completion check: it
    contains no strict completion marker and is at most 800 characters
    long (the loose branch requires more than 800). -/
def noCompletionSignal (r : String) : Prop :=
  (∀ m ∈ strictCompletionMarkers, strContains r m = false) ∧ r.length ≤ 800

/-! # Theorems -/

/-! ## C3 — the completion decision under pending messages -/

/-- Helper: `checkPendingRelayMessages` with an empty inbox reports only
    the unacknowledged count. -/
theorem checkPending_nil (acks : List String) :
    checkPendingRelayMessages [] acks =
      (decide (0 < acks.length),
       { totalCount := 0, interventionCount := 0, highPriorityCount := 0,
         unacknowledgedCount := acks.length, messageTypes := [],
         interventions := [], requiresResponse := false }) := by
  simp [checkPendingRelayMessages]

/-- C3 counterexample: a worker whose pending-acknowledgement set is
    non-empty (a blocking condition of the claim) and whose final text
    contains the acknowledgement phrase 已收到干预通知 is still not allowed
    to complete — `_can_complete_with_pending_messages` returns `False`
    (rule 2 fires before the acknowledgement-phrase rule 5), refuting the
    claim at this input. -/
theorem ack_phrase_does_not_override_blocking_conditions :
    canCompleteWithPendingMessages
      "已收到干预通知，内容是最新的人工干预。我已根据该通知调整分析并给出结论。"
      (checkPendingRelayMessages [] ["intervention-msg-1"]).2 = false := by
  decide

/-- C3 amended: the completion decision allows completion exactly when
    none of the four blocking conditions holds (no high-priority item, an
    empty pending-ack set, no response-requiring message, no queued
    inject/adjust intervention) and either the final text contains an
    acknowledgement phrase or only a small backlog of ordinary messages is
    pending with a substantial response.  In particular an acknowledgement
    phrase never overrides a blocking condition; it only lifts the block
    arising from ordinary queued messages. -/
theorem can_complete_with_pending_characterization (response : String) (s : PendingSummary) :
    canCompleteWithPendingMessages response s = true ↔
      summaryBlocksCompletion s = false ∧
      (acknowledgementPatterns.any (fun p => strContains response p) = true ∨
       (s.interventionCount = 0 ∧ s.totalCount ≤ 2 ∧ 500 < response.length)) := by
  unfold canCompleteWithPendingMessages summaryBlocksCompletion
  split_ifs with h1 h2 h3 h4 h5 h6 <;> simp_all

/-! ## C9 — the intervention relay message's importance and metadata -/

/-- C9: for an intervention with priority in [1, 10], the
    `human_intervention` relay message built by `broadcast_intervention`
    has importance `min(1.0, priority/10 + 0.3)`, this value lies in
    [0, 1], and the metadata carries `requires_acknowledgement = true`. -/
theorem intervention_importance_formula_and_range (iv : Intervention)
    (messageId : String) (stationId : Option String)
    (h1 : 1 ≤ iv.priority) (h2 : iv.priority ≤ 10) :
    (interventionRelayMessage iv messageId stationId).importance
        = min 1 ((iv.priority : ℚ) / 10 + 3/10) ∧
    0 ≤ (interventionRelayMessage iv messageId stationId).importance ∧
    (interventionRelayMessage iv messageId stationId).importance ≤ 1 ∧
    (interventionRelayMessage iv messageId stationId).metadata.requiresAcknowledgement
        = true := by
  refine ⟨rfl, ?_, ?_, rfl⟩
  · have hq : (1 : ℚ) ≤ (iv.priority : ℚ) := by exact_mod_cast h1
    have hnn : (0 : ℚ) ≤ (iv.priority : ℚ) / 10 + 3/10 := by linarith
    exact le_min (by norm_num) hnn
  · exact min_le_left _ _

/-- Witness for C9 at priority 5: the importance is `min 1 (5/10 + 3/10)`
    and lies in [0, 1], with acknowledgement required. -/
theorem intervention_importance_formula_and_range_witness :
    (1 : Int) ≤ 5 ∧ (5 : Int) ≤ 10 ∧
    ((interventionRelayMessage
        { id := "iv1", type := InterventionType.inject,
          payloadInformation := some "Focus on long takes",
          scope := InterventionScope.broadcast, priority := 5 } "m1" none).importance
        = min 1 (((5 : Int) : ℚ) / 10 + 3/10) ∧
     0 ≤ (interventionRelayMessage
        { id := "iv1", type := InterventionType.inject,
          payloadInformation := some "Focus on long takes",
          scope := InterventionScope.broadcast, priority := 5 } "m1" none).importance ∧
     (interventionRelayMessage
        { id := "iv1", type := InterventionType.inject,
          payloadInformation := some "Focus on long takes",
          scope := InterventionScope.broadcast, priority := 5 } "m1" none).importance ≤ 1 ∧
     (interventionRelayMessage
        { id := "iv1", type := InterventionType.inject,
          payloadInformation := some "Focus on long takes",
          scope := InterventionScope.broadcast, priority := 5 } "m1" none).metadata.requiresAcknowledgement
        = true) :=
  ⟨by decide, by decide,
   intervention_importance_formula_and_range _ "m1" none (by decide) (by decide)⟩

/-! ## C5 — force-apply broadcast: ingestion order versus relay dispatch -/

/-- C5 counterexample: `broadcast_to_all_agents` with `force_action=True`
    (scope `all`) on two registered workers produces the action trace
    deliver w1, deliver w2, inject w1, inject w2 — the relay broadcast is
    dispatched first and the forced ingestion happens afterwards, so the
    claimed before-dispatch ordering is false at this input. -/
theorem force_broadcast_ingests_after_dispatch_example :
    (broadcastToAllAgents ["w1", "w2"]
        { registeredAgents := ["w1", "w2"], interventionHandlers := ["w1", "w2"] }
        "Stop and summarize" "" 8 true).2 =
      [MasterAction.relayDeliver "w1" true, MasterAction.relayDeliver "w2" true,
       MasterAction.forceInject "w1", MasterAction.forceInject "w2"] ∧
    forceIngestPrecedesDispatch
      (broadcastToAllAgents ["w1", "w2"]
        { registeredAgents := ["w1", "w2"], interventionHandlers := ["w1", "w2"] }
        "Stop and summarize" "" 8 true).2 = false := by
  constructor <;> decide

/-- C5 amended: with `force_action=True` (scope `all`) and a non-empty
    worker set, the trace is the relay-dispatch actions followed by one
    forced ingestion per active worker — the ingestion happens after the
    broadcast is dispatched, not before; with `force_action=False` (scope
    `broadcast`) no worker is force-ingested. -/
theorem force_broadcast_ingest_follows_dispatch (agents : List String)
    (c : CoordState) (message reason : String) (priority : Int)
    (hne : agents ≠ []) :
    (∃ ds, (broadcastToAllAgents agents c message reason priority true).2
        = ds ++ agents.map MasterAction.forceInject ∧
        ∀ x ∈ ds, x.isForceInject = false) ∧
    (∀ x ∈ (broadcastToAllAgents agents c message reason priority false).2,
        x.isForceInject = false) := by
  have hemp : agents.isEmpty = false := by
    cases agents with
    | nil => exact absurd rfl hne
    | cons a l => rfl
  have hdeliver : ∀ (iv : Intervention),
      ∀ x ∈ broadcastInterventionDeliveries c iv, x.isForceInject = false := by
    intro iv x hx
    unfold broadcastInterventionDeliveries at hx
    rcases List.mem_filterMap.mp hx with ⟨a, _, hfa⟩
    by_cases hreg : a ∈ c.registeredAgents
    · simp only [if_pos hreg, Option.some_inj] at hfa
      rw [← hfa]
      rfl
    · simp [if_neg hreg] at hfa
  constructor
  · refine ⟨broadcastInterventionDeliveries c
      { id := "iv", type := InterventionType.inject,
        targetAgentIds := agents,
        payloadInformation := some message,
        reason := if reason = "" then "用户广播了一条消息" else reason,
        scope := InterventionScope.all, priority := priority }, ?_, hdeliver _⟩
    unfold broadcastToAllAgents
    simp [hemp]
  · intro x hx
    unfold broadcastToAllAgents at hx
    simp only [hemp, Bool.false_eq_true, if_false, List.append_nil] at hx
    exact hdeliver _ x hx

/-- Witness for C5 on a concrete two-worker session. -/
theorem force_broadcast_ingest_follows_dispatch_witness :
    (["w1", "w2"] : List String) ≠ [] ∧
    ((∃ ds, (broadcastToAllAgents ["w1", "w2"]
        { registeredAgents := ["w1", "w2"], interventionHandlers := [] }
        "msg" "r" 7 true).2
        = ds ++ (["w1", "w2"] : List String).map MasterAction.forceInject ∧
        ∀ x ∈ ds, x.isForceInject = false) ∧
     (∀ x ∈ (broadcastToAllAgents ["w1", "w2"]
        { registeredAgents := ["w1", "w2"], interventionHandlers := [] }
        "msg" "r" 7 false).2, x.isForceInject = false)) :=
  ⟨by decide,
   force_broadcast_ingest_follows_dispatch ["w1", "w2"] _ "msg" "r" 7 (by decide)⟩

/-! ## C6 — delivery counts of `broadcast_message` -/

/-- Helper: counting occurrences below a filter. -/
theorem count_filter_false {l : List String} {a : String} {p : String → Bool}
    (h : p a = false) : (l.filter p).count a = 0 := by
  induction l with
  | nil => simp
  | cons x xs ih =>
    by_cases hx : p x = true
    · simp only [List.filter_cons, hx, if_true]
      rw [List.count_cons]
      have hxa : ¬ (x = a) := by
        rintro rfl
        rw [h] at hx
        exact Bool.false_ne_true hx
      simp [hxa, ih]
    · simp only [List.filter_cons]
      simp only [Bool.not_eq_true] at hx
      simp [hx, ih]

/-- C6 counterexample: with two registered workers, broadcasting a message
    whose explicit target list is `["w2", "ghost"]` (two entries, one of
    them unregistered) produces exactly one delivery, not two — the
    unregistered id is silently skipped by the dispatch loop, refuting
    "exactly |list| deliveries" at this input. -/
theorem explicit_target_list_unregistered_id_delivery_count :
    broadcastMessageDeliveries
      { registeredAgents := ["w1", "w2"], interventionHandlers := [] }
      { id := "m1", type := RelayType.discovery, sourceAgentId := "w1",
        targetAgentIds := ["w2", "ghost"], content := "关键发现",
        importance := 8/10, metadata := {} } = ["w2"] ∧
    (broadcastMessageDeliveries
      { registeredAgents := ["w1", "w2"], interventionHandlers := [] }
      { id := "m1", type := RelayType.discovery, sourceAgentId := "w1",
        targetAgentIds := ["w2", "ghost"], content := "关键发现",
        importance := 8/10, metadata := {} }).length ≠
      (["w2", "ghost"] : List String).length := by
  constructor <;> decide

/-- C6 amended: for a session whose registered workers are pairwise
    distinct and include the sender — if the message's `target_agent_ids`
    is empty, exactly the N−1 registered workers other than the sender
    each receive one delivery and the sender none; if it is a non-empty
    explicit list, each listed id receives one delivery per listed
    occurrence when it is registered and none when it is not (so the
    number of deliveries is the number of registered entries of the list,
    not necessarily |list|). -/
theorem broadcast_message_delivery_counts (c : CoordState) (msg : RelayMessage)
    (hnd : c.registeredAgents.Nodup)
    (hs : msg.sourceAgentId ∈ c.registeredAgents) :
    (msg.targetAgentIds = [] →
      broadcastMessageDeliveries c msg
          = c.registeredAgents.filter (fun a => decide (a ≠ msg.sourceAgentId)) ∧
      (broadcastMessageDeliveries c msg).length + 1 = c.registeredAgents.length ∧
      (∀ a ∈ c.registeredAgents, a ≠ msg.sourceAgentId →
        (broadcastMessageDeliveries c msg).count a = 1) ∧
      (broadcastMessageDeliveries c msg).count msg.sourceAgentId = 0) ∧
    (msg.targetAgentIds ≠ [] →
      (∀ a ∈ c.registeredAgents,
        (broadcastMessageDeliveries c msg).count a = msg.targetAgentIds.count a) ∧
      (∀ a, a ∉ c.registeredAgents → (broadcastMessageDeliveries c msg).count a = 0)) := by
  constructor
  · intro hempty
    have hdel : broadcastMessageDeliveries c msg
        = c.registeredAgents.filter (fun a => decide (a ≠ msg.sourceAgentId)) := by
      unfold broadcastMessageDeliveries
      rw [hempty]
      simp only [List.isEmpty_nil, if_true]
      rw [List.filter_filter]
      apply List.filter_congr
      intro a ha
      simp [ha]
    refine ⟨hdel, ?_, ?_, ?_⟩
    · rw [hdel]
      have h1 : c.registeredAgents.erase msg.sourceAgentId
          = c.registeredAgents.filter (fun x => x != msg.sourceAgentId) :=
        List.Nodup.erase_eq_filter hnd msg.sourceAgentId
      have h2 : c.registeredAgents.filter (fun x => x != msg.sourceAgentId)
          = c.registeredAgents.filter (fun x => decide (x ≠ msg.sourceAgentId)) := by
        apply List.filter_congr
        intro x _
        by_cases hxa : x = msg.sourceAgentId <;> simp [hxa]
      have h3 := List.length_erase_of_mem hs
      rw [h1, h2] at h3
      have h4 : 0 < c.registeredAgents.length :=
        List.length_pos.mpr (List.ne_nil_of_mem hs)
      omega
    · intro a ha hane
      rw [hdel, List.count_filter (by simpa using hane)]
      exact List.count_eq_one_of_mem hnd ha
    · rw [hdel]
      exact count_filter_false (by simp)
  · intro hne
    have hdel : broadcastMessageDeliveries c msg
        = msg.targetAgentIds.filter (fun a => decide (a ∈ c.registeredAgents)) := by
      unfold broadcastMessageDeliveries
      rw [if_neg (by simpa [List.isEmpty_iff] using hne)]
    constructor
    · intro a ha
      rw [hdel, List.count_filter (by simpa using ha)]
    · intro a ha
      rw [hdel]
      exact count_filter_false (by simpa using ha)

/-- Witness for C6: three registered workers; an empty-target broadcast
    from w1 delivers to exactly the two others, once each. -/
theorem broadcast_message_delivery_counts_witness :
    (["w1", "w2", "w3"] : List String).Nodup ∧
    "w1" ∈ (["w1", "w2", "w3"] : List String) ∧
    (broadcastMessageDeliveries
      { registeredAgents := ["w1", "w2", "w3"], interventionHandlers := [] }
      { id := "m2", type := RelayType.insight, sourceAgentId := "w1",
        targetAgentIds := [], content := "核心洞察", importance := 8/10,
        metadata := {} }).length + 1 = 3 ∧
    (broadcastMessageDeliveries
      { registeredAgents := ["w1", "w2", "w3"], interventionHandlers := [] }
      { id := "m2", type := RelayType.insight, sourceAgentId := "w1",
        targetAgentIds := [], content := "核心洞察", importance := 8/10,
        metadata := {} }).count "w2" = 1 :=
  ⟨by decide, by decide,
   ((broadcast_message_delivery_counts
      { registeredAgents := ["w1", "w2", "w3"], interventionHandlers := [] }
      { id := "m2", type := RelayType.insight, sourceAgentId := "w1",
        targetAgentIds := [], content := "核心洞察", importance := 8/10,
        metadata := {} } (by decide) (by decide)).1 rfl).2.1,
   (((broadcast_message_delivery_counts
      { registeredAgents := ["w1", "w2", "w3"], interventionHandlers := [] }
      { id := "m2", type := RelayType.insight, sourceAgentId := "w1",
        targetAgentIds := [], content := "核心洞察", importance := 8/10,
        metadata := {} } (by decide) (by decide)).1 rfl).2.2.1 "w2" (by decide) (by decide))⟩

/-! ## C7 — direct-mode history trimming bounds -/

/-- Helper: dropping the prefix up to the `k`-th round start leaves
    exactly `userCount h − k` rounds. -/
theorem roundStarts_length_drop (h : List DMsg) :
    ∀ k, k < (roundStarts h).length →
      (roundStarts (h.drop ((roundStarts h).getD k 0))).length
        = (roundStarts h).length - k := by
  induction h with
  | nil => intro k hk; simp [roundStarts] at hk
  | cons m rest ih =>
    intro k hk
    have hmap : ∀ j, j < (roundStarts rest).length →
        ((roundStarts rest).map (· + 1)).getD j 0 = (roundStarts rest).getD j 0 + 1 := by
      intro j hj
      rw [List.getD_eq_getElem?_getD, List.getD_eq_getElem?_getD, List.getElem?_map,
        List.getElem?_eq_getElem hj]
      simp
    by_cases hu : m.role = "user"
    · rw [roundStarts, if_pos hu] at hk ⊢
      cases k with
      | zero => simp [roundStarts, hu]
      | succ j =>
        have hj : j < (roundStarts rest).length := by
          simpa using hk
        have hgd : (0 :: (roundStarts rest).map (· + 1)).getD (j + 1) 0
            = (roundStarts rest).getD j 0 + 1 := by
          simpa using hmap j hj
        rw [hgd, List.drop_succ_cons]
        rw [ih j hj]
        simp only [List.length_cons, List.length_map]
        omega
    · rw [roundStarts, if_neg hu] at hk ⊢
      have hj : k < (roundStarts rest).length := by simpa using hk
      rw [hmap k hj, List.drop_succ_cons, ih k hj]
      simp

/-- Helper: the number of rounds equals the count of user-role messages. -/
theorem roundStarts_length_eq_countP (h : List DMsg) :
    (roundStarts h).length = h.countP (fun m => decide (m.role = "user")) := by
  induction h with
  | nil => simp [roundStarts]
  | cons m rest ih =>
    by_cases hu : m.role = "user" <;>
      simp [roundStarts, hu, List.countP_cons, ih]

/-- Helper: dropping a prefix cannot increase the number of rounds. -/
theorem userCount_drop_le (h : List DMsg) (n : Nat) :
    userCount (h.drop n) ≤ userCount h := by
  unfold userCount
  rw [roundStarts_length_eq_countP, roundStarts_length_eq_countP]
  exact (List.drop_sublist n h).countP_le _

/-- Helper: the round-count trim leaves at most `maxRounds` rounds (for a
    positive `maxRounds`; the call site uses 6). -/
theorem userCount_trimByRounds_le (maxRounds : Nat) (h : List DMsg)
    (hpos : 0 < maxRounds) :
    userCount (trimByRounds maxRounds h) ≤ maxRounds := by
  unfold trimByRounds userCount
  by_cases hgt : maxRounds < (roundStarts h).length
  · simp only [if_pos hgt]
    have hk : (roundStarts h).length - maxRounds < (roundStarts h).length := by omega
    rw [roundStarts_length_drop h _ hk]
    omega
  · simp only [if_neg hgt]
    omega

/-- Helper: the budget loop never increases the number of rounds. -/
theorem userCount_trimByBudget_le (h : List DMsg) :
    userCount (trimByBudget h) ≤ userCount h := by
  induction h using trimByBudget.induct with
  | case1 h hc ih =>
    rw [trimByBudget, dif_pos hc]
    exact le_trans ih (userCount_drop_le h (nextRoundStart h))
  | case2 h hc =>
    rw [trimByBudget, dif_neg hc]

/-- Helper: when the budget loop stops, either the character budget is met
    or at most two rounds remain. -/
theorem trimByBudget_post (h : List DMsg) :
    totalChars (trimByBudget h) ≤ 24000 ∨ userCount (trimByBudget h) ≤ 2 := by
  induction h using trimByBudget.induct with
  | case1 h hc ih =>
    rw [trimByBudget, dif_pos hc]
    exact ih
  | case2 h hc =>
    rw [trimByBudget, dif_neg hc]
    unfold userCount
    omega

/-- C7 amended: after `_trim_conversation_history` the history holds at
    most 6 user messages, and its total character count is at most 24000
    unless at most 2 rounds remain (the budget loop stops as soon as only
    two rounds are left, so a two-round history may exceed the budget). -/
theorem direct_trim_history_bounds (h : List DMsg) :
    userCount (trimConversationHistory h) ≤ 6 ∧
    (totalChars (trimConversationHistory h) ≤ 24000 ∨
     userCount (trimConversationHistory h) ≤ 2) := by
  unfold trimConversationHistory
  constructor
  · exact le_trans (userCount_trimByBudget_le _)
      (userCount_trimByRounds_le 6 h (by omega))
  · exact trimByBudget_post _

/-- C7 counterexample: a history of exactly two rounds whose contents
    total 26000 characters is left untouched by the trim (the budget loop
    requires more than two rounds), so after the turn the history has 2
    rounds — not fewer than 2 — and 26000 > 24000 characters, refuting
    the claimed bound at this input. -/
theorem direct_trim_two_rounds_exceed_char_budget :
    userCount (trimConversationHistory
      [{ role := "user", content := String.mk (List.replicate 13000 'a') },
       { role := "assistant", content := "" },
       { role := "user", content := String.mk (List.replicate 13000 'a') },
       { role := "assistant", content := "" }]) = 2 ∧
    totalChars (trimConversationHistory
      [{ role := "user", content := String.mk (List.replicate 13000 'a') },
       { role := "assistant", content := "" },
       { role := "user", content := String.mk (List.replicate 13000 'a') },
       { role := "assistant", content := "" }]) = 26000 := by
  have hrs : roundStarts
      [{ role := "user", content := String.mk (List.replicate 13000 'a') },
       { role := "assistant", content := "" },
       { role := "user", content := String.mk (List.replicate 13000 'a') },
       { role := "assistant", content := "" }] = [0, 2] := by
    simp [roundStarts]
  have h1 : (String.mk (List.replicate 13000 'a')).length = 13000 := by
    show (List.replicate 13000 'a').length = 13000
    exact List.length_replicate 13000 'a'
  have htc : totalChars
      [{ role := "user", content := String.mk (List.replicate 13000 'a') },
       { role := "assistant", content := "" },
       { role := "user", content := String.mk (List.replicate 13000 'a') },
       { role := "assistant", content := "" }] = 26000 := by
    simp only [totalChars, List.map_cons, List.map_nil, List.sum_cons, List.sum_nil, h1]
    norm_num
  have hfix : trimConversationHistory
      [{ role := "user", content := String.mk (List.replicate 13000 'a') },
       { role := "assistant", content := "" },
       { role := "user", content := String.mk (List.replicate 13000 'a') },
       { role := "assistant", content := "" }] =
      [{ role := "user", content := String.mk (List.replicate 13000 'a') },
       { role := "assistant", content := "" },
       { role := "user", content := String.mk (List.replicate 13000 'a') },
       { role := "assistant", content := "" }] := by
    unfold trimConversationHistory trimByRounds
    rw [hrs]
    simp only [List.length_cons, List.length_nil]
    rw [if_neg (by omega)]
    rw [trimByBudget, dif_neg (by rw [hrs]; simp)]
  rw [hfix, htc]
  refine ⟨?_, rfl⟩
  unfold userCount
  rw [hrs]
  rfl

/-! ## C8 — every parsed plan has between 1 and 5 roles -/

/-- Helper: role building preserves the role count. -/
theorem buildRoles_length :
    ∀ (l : List RoleJson) (bs : List BuiltRole),
      buildRoles l = Except.ok bs → bs.length = l.length := by
  intro l
  induction l with
  | nil =>
    intro bs h
    simp only [buildRoles] at h
    cases h
    rfl
  | cons r rest ih =>
    intro bs h
    simp only [buildRoles] at h
    cases hr : buildRole r with
    | error e => rw [hr] at h; cases h
    | ok b =>
      rw [hr] at h
      cases hrest : buildRoles rest with
      | error e => rw [hrest] at h; cases h
      | ok bs2 =>
        rw [hrest] at h
        cases h
        simp [ih bs2 hrest]

/-- C8: every plan returned by `_parse_response` has a role count in
    [1, 5]: parsing raises when `roles` is missing or empty, and a decoded
    roles list is truncated to its first 5 entries, so the plan's role
    count is `min |roles| 5`. -/
theorem parse_response_role_count_bounds (task response : String)
    (decoded : Option JsonPlanData) (plan : TaskPlanModel)
    (h : parseResponse task response decoded = Except.ok plan) :
    1 ≤ plan.emergentRoles.length ∧ plan.emergentRoles.length ≤ 5 ∧
    plan.subagentConfigCount = plan.emergentRoles.length ∧
    ∃ d, decoded = some d ∧ d.roles ≠ [] ∧
      plan.emergentRoles.length = min d.roles.length 5 := by
  unfold parseResponse at h
  by_cases hjs : extractJson response = ""
  · rw [if_pos hjs] at h; cases h
  · rw [if_neg hjs] at h
    cases hd : decoded with
    | none => rw [hd] at h; cases h
    | some d =>
      rw [hd] at h
      dsimp only at h
      by_cases hroles : d.roles.isEmpty
      · rw [if_pos hroles] at h; cases h
      · rw [if_neg hroles] at h
        cases hb : buildRoles (d.roles.take 5) with
        | error e => rw [hb] at h; cases h
        | ok roles =>
          rw [hb] at h
          cases h
          have hlen : roles.length = (d.roles.take 5).length :=
            buildRoles_length _ _ hb
          have htake : (d.roles.take 5).length = min 5 d.roles.length :=
            List.length_take 5 d.roles
          have hne : d.roles ≠ [] := by
            intro he
            rw [he] at hroles
            exact hroles rfl
          have hpos : 0 < d.roles.length := List.length_pos.mpr hne
          refine ⟨by simp; omega, by simp; omega, rfl, d, rfl, hne, by simp; omega⟩

/-- Witness for C8: a fenced-JSON response decoded to a single role parses
    into a plan with exactly one role. -/
theorem parse_response_role_count_bounds_witness :
    parseResponse "分析电影X" "```json\nrolesblock\n```"
        (some { roles := [{ name := some "镜头分析师" }] })
      = Except.ok
        { originalTask := "分析电影X", analysis := "任务分析中...",
          emergentRoles := [{ name := "镜头分析师", description := "镜头分析师" }],
          subagentConfigCount := 1, relayStationCount := 1,
          estimatedDuration := 300 } ∧
    (1 ≤ ([{ name := "镜头分析师", description := "镜头分析师" }] : List BuiltRole).length ∧
     ([{ name := "镜头分析师", description := "镜头分析师" }] : List BuiltRole).length ≤ 5 ∧
     (1 : Nat) = ([{ name := "镜头分析师", description := "镜头分析师" }] : List BuiltRole).length ∧
     ∃ d, (some { roles := [{ name := some "镜头分析师" }] } : Option JsonPlanData) = some d ∧
       d.roles ≠ [] ∧
       ([{ name := "镜头分析师", description := "镜头分析师" }] : List BuiltRole).length
         = min d.roles.length 5) :=
  ⟨rfl,
   parse_response_role_count_bounds "分析电影X" "```json\nrolesblock\n```"
     (some { roles := [{ name := some "镜头分析师" }] })
     { originalTask := "分析电影X", analysis := "任务分析中...",
       emergentRoles := [{ name := "镜头分析师", description := "镜头分析师" }],
       subagentConfigCount := 1, relayStationCount := 1,
       estimatedDuration := 300 } rfl⟩

/-! ## C2 — planning failure: how the stream actually ends -/

/-- C2 amended: whenever the planner's output yields no parseable JSON, a
    JSON decode error, or an empty roles list, `_parse_response` raises,
    and `execute_task` ends its event stream with the planning-failure
    text deltas followed by `text_message_end` — it emits no `run_error`
    event at all (no `PLANNING_FAILED` code exists in the code base), and
    the in-memory session status remains `planning` rather than becoming
    `error` (the API layer flips the stored status to error only upon a
    `RunErrorEvent`, which this path never produces). -/
theorem planning_failure_ends_stream_without_run_error
    (task response : String) (decoded : Option JsonPlanData)
    (chunks : List String) (rest : List MEvent) (restStatus : AgentStatus)
    (h : extractJson response = "" ∨ decoded = none ∨
         ∃ d, decoded = some d ∧ d.roles = []) :
    ∃ e, parseResponse task response decoded = Except.error e ∧
      (executeTaskPlanningEvents (Except.error e) chunks rest).getLast?
        = some (MEvent.textMessageEnd "planning") ∧
      (∀ ev ∈ executeTaskPlanningEvents (Except.error e) chunks rest,
        ev.isRunError = false) ∧
      executeTaskSessionStatus (Except.error e) restStatus = AgentStatus.planning := by
  have hprops : ∀ e : String,
      (executeTaskPlanningEvents (Except.error e) chunks rest).getLast?
        = some (MEvent.textMessageEnd "planning") ∧
      (∀ ev ∈ executeTaskPlanningEvents (Except.error e) chunks rest,
        ev.isRunError = false) ∧
      executeTaskSessionStatus (Except.error e) restStatus = AgentStatus.planning := by
    intro e
    refine ⟨?_, ?_, rfl⟩
    · unfold executeTaskPlanningEvents
      dsimp only
      have hlast : ∀ A : List MEvent,
          (A ++ [MEvent.textMessageContent "planning" ("\n\n❌ 角色涌现错误: " ++ e ++ "\n"),
                 MEvent.textMessageContent "planning" "❌ 角色涌现失败\n",
                 MEvent.textMessageEnd "planning"]).getLast?
            = some (MEvent.textMessageEnd "planning") := by
        intro A
        rw [List.getLast?_append_of_ne_nil A (by simp)]
        rfl
      exact hlast _
    · intro ev hev
      unfold executeTaskPlanningEvents at hev
      dsimp only at hev
      simp only [List.mem_append, List.mem_cons, List.mem_map,
        List.not_mem_nil, or_false] at hev
      rcases hev with ((rfl | rfl | rfl) | ⟨c, _, rfl⟩) | (rfl | rfl | rfl) <;> rfl
  have herr : ∃ e, parseResponse task response decoded = Except.error e := by
    unfold parseResponse
    rcases h with hjs | hd | ⟨d, hd, hroles⟩
    · exact ⟨"无法从响应中提取 JSON", by rw [if_pos hjs]⟩
    · by_cases hjs : extractJson response = ""
      · exact ⟨"无法从响应中提取 JSON", by rw [if_pos hjs]⟩
      · exact ⟨"JSON 解析失败", by rw [if_neg hjs, hd]⟩
    · by_cases hjs : extractJson response = ""
      · exact ⟨"无法从响应中提取 JSON", by rw [if_pos hjs]⟩
      · refine ⟨"响应中没有 roles 字段或为空", ?_⟩
        rw [if_neg hjs, hd]
        dsimp only
        rw [if_pos (by rw [hroles]; rfl)]
  obtain ⟨e, he⟩ := herr
  exact ⟨e, he, hprops e⟩

/-- Witness for C2: a decode that yields an empty roles list makes the
    parse fail and the stream end without a `run_error`. -/
theorem planning_failure_ends_stream_without_run_error_witness :
    (extractJson "some analysis text" = "" ∨
     (some { roles := [] } : Option JsonPlanData) = none ∨
     ∃ d, (some { roles := [] } : Option JsonPlanData) = some d ∧ d.roles = []) ∧
    (∃ e, parseResponse "任务" "some analysis text" (some { roles := [] })
        = Except.error e ∧
      (executeTaskPlanningEvents (Except.error e) ["chunk1"] []).getLast?
        = some (MEvent.textMessageEnd "planning") ∧
      (∀ ev ∈ executeTaskPlanningEvents (Except.error e) ["chunk1"] [],
        ev.isRunError = false) ∧
      executeTaskSessionStatus (Except.error e) AgentStatus.completed
        = AgentStatus.planning) :=
  ⟨Or.inl rfl,
   planning_failure_ends_stream_without_run_error "任务" "some analysis text"
     (some { roles := [] }) ["chunk1"] [] AgentStatus.completed (Or.inl rfl)⟩

/-- C2 counterexample: with the planner output "Sorry, I cannot help with
    that." (no extractable JSON), the run's event stream ends with
    `text_message_end` — not with a `run_error{code=PLANNING_FAILED}` —
    and the session status is `planning`, not `error`, refuting the claim
    at this input. -/
theorem planning_failure_stream_has_no_run_error_event :
    (executeTaskPlanningEvents
        (parseResponse "分析电影X的镜头语言" "Sorry, I cannot help with that." none) [] []).getLast?
      = some (MEvent.textMessageEnd "planning") ∧
    ((executeTaskPlanningEvents
        (parseResponse "分析电影X的镜头语言" "Sorry, I cannot help with that." none) [] []).all
      (fun ev => !ev.isRunError)) = true ∧
    executeTaskSessionStatus
        (parseResponse "分析电影X的镜头语言" "Sorry, I cannot help with that." none)
        AgentStatus.failed = AgentStatus.planning ∧
    executeTaskSessionStatus
        (parseResponse "分析电影X的镜头语言" "Sorry, I cannot help with that." none)
        AgentStatus.failed ≠ AgentStatus.failed := by
  refine ⟨?_, ?_, ?_, ?_⟩ <;> decide

/-! ## Run-loop lemmas shared by C1, C4 and C10 -/

/-- Helper: a response with no completion signal never passes the
    completion check, whatever is pending. -/
theorem isTaskComplete_eq_false (r : String) (inbox : List RelayMessage)
    (acks : List String) (n : Nat) (hsig : noCompletionSignal r) :
    isTaskComplete r inbox acks n = false := by
  obtain ⟨h1, h2⟩ := hsig
  have hany : strictCompletionMarkers.any (fun m => strContains r m) = false := by
    simp only [List.any_eq_false]
    intro m hm
    simp [h1 m hm]
  have hlen : ¬ (800 < r.length) := by omega
  unfold isTaskComplete
  dsimp only
  split_ifs with hp hm hn
  · rfl
  · rw [hany] at hm
    cases hm
  · simp [hlen]
  · rfl

/-- Helper: one loop iteration never touches the pending-ack set. -/
theorem runIteration_pendingAcks (env : RunEnv) (j : Nat) (s : WorkerState) :
    (runIteration env j s).1.pendingAcks = s.pendingAcks := by
  unfold runIteration processRelayInbox
  dsimp only
  split_ifs <;> rfl

/-- Helper: under a no-completion-signal response the iteration does not
    break, and its effect on the claim-relevant fields. -/
theorem runIteration_of_noSignal (env : RunEnv) (j : Nat) (s : WorkerState)
    (hsig : noCompletionSignal (env.responses j)) :
    (runIteration env j s).2 = false ∧
    (runIteration env j s).1.finalResult = s.finalResult ∧
    (runIteration env j s).1.iterations = j ∧
    (runIteration env j s).1.interimResult = env.responses j ∧
    (runIteration env j s).1.status = s.status := by
  have hf : ∀ inbox acks n, isTaskComplete (env.responses j) inbox acks n = false :=
    fun i a n => isTaskComplete_eq_false _ i a n hsig
  unfold runIteration processRelayInbox
  dsimp only
  simp only [hf, Bool.false_eq_true, if_false]
  split_ifs <;> simp

/-- Helper: a completed run leaves the pending-ack set exactly as it was
    (the loop never removes — nor adds — entries; additions happen only
    through `receive_intervention`). -/
theorem runAux_pendingAcks (env : RunEnv) :
    ∀ (fuel t iteration : Nat) (s s2 : WorkerState),
      runAux env fuel t iteration s = some s2 → s2.pendingAcks = s.pendingAcks := by
  intro fuel
  induction fuel with
  | zero =>
    intro t i s s2 h
    simp [runAux] at h
  | succ fuel ih =>
    intro t i s s2 h
    simp only [runAux] at h
    split_ifs at h with hcond hpause hbreak
    · have := ih (t + 1) i _ _ h
      simpa using this
    · cases h
      have := runIteration_pendingAcks env (i + 1) s
      simpa [finishRun] using this
    · have := ih (t + 1) (i + 1) _ _ h
      rw [this, runIteration_pendingAcks]
    · cases h
      rfl

/-- Helper: `mark_viewed` changes only the viewed-by set. -/
theorem markViewed_metadata (a : String) (m : RelayMessage) :
    (markViewed a m).metadata = m.metadata ∧ (markViewed a m).id = m.id := by
  unfold markViewed
  split_ifs <;> exact ⟨rfl, rfl⟩

/-- Helper: every worker operation can only extend the pending-ack list. -/
theorem applyWorkerOp_pendingAcks (op : WorkerOp) (s : WorkerState) :
    ∃ t, (applyWorkerOp op s).pendingAcks = s.pendingAcks ++ t := by
  cases op with
  | receiveRelayMessageOp m =>
    exact ⟨[], by simp [applyWorkerOp, receiveRelayMessage]⟩
  | receiveInterventionOp m =>
    refine ⟨if (markViewed s.agentId m).metadata.requiresAcknowledgement then
        [(markViewed s.agentId m).id] else [], ?_⟩
    unfold applyWorkerOp receiveIntervention
    dsimp only
    split_ifs <;> simp
  | injectInformationOp info =>
    exact ⟨[], by simp [applyWorkerOp, injectInformation]⟩
  | pauseOp => exact ⟨[], by simp [applyWorkerOp]⟩
  | resumeOp => exact ⟨[], by simp [applyWorkerOp]⟩
  | cancelOp => exact ⟨[], by simp [applyWorkerOp]⟩

/-- Helper: the summary accumulation never touches the unacknowledged
    count. -/
theorem summaryStep_unack (s : PendingSummary) (m : RelayMessage) :
    (summaryStep s m).unacknowledgedCount = s.unacknowledgedCount := by
  unfold summaryStep
  dsimp only
  split_ifs <;> rfl

/-- Helper: the completion check reports the pending-ack list's length as
    the unacknowledged count. -/
theorem checkPending_unacknowledgedCount (inbox : List RelayMessage)
    (acks : List String) :
    (checkPendingRelayMessages inbox acks).2.unacknowledgedCount = acks.length := by
  unfold checkPendingRelayMessages
  dsimp only
  have : ∀ (l : List RelayMessage) (init : PendingSummary),
      (l.foldl summaryStep init).unacknowledgedCount = init.unacknowledgedCount := by
    intro l
    induction l with
    | nil => intro init; rfl
    | cons m rest ih =>
      intro init
      rw [List.foldl_cons, ih, summaryStep_unack]
  rw [this]

/-! ## C10 — the pending-acknowledgement set only grows -/

/-- C10: no operation removes an entry from a worker's pending-ack set.
    `receive_intervention` appends the message id when acknowledgement is
    required; every worker operation leaves the existing entries in place
    (the set only gains a suffix), any sequence of operations likewise;
    the run loop leaves the set untouched; and consequently the completion
    check's unacknowledged count never decreases across any operation. -/
theorem pending_acknowledgements_never_removed :
    (∀ (m : RelayMessage) (s : WorkerState),
      m.metadata.requiresAcknowledgement = true →
        (receiveIntervention m s).pendingAcks
          = s.pendingAcks ++ [(markViewed s.agentId m).id]) ∧
    (∀ (op : WorkerOp) (s : WorkerState),
      ∃ t, (applyWorkerOp op s).pendingAcks = s.pendingAcks ++ t) ∧
    (∀ (ops : List WorkerOp) (s : WorkerState),
      ∃ t, (ops.foldl (fun st op => applyWorkerOp op st) s).pendingAcks
        = s.pendingAcks ++ t) ∧
    (∀ (env : RunEnv) (fuel t iteration : Nat) (s s2 : WorkerState),
      runAux env fuel t iteration s = some s2 → s2.pendingAcks = s.pendingAcks) ∧
    (∀ (op : WorkerOp) (s : WorkerState),
      (checkPendingRelayMessages s.inbox s.pendingAcks).2.unacknowledgedCount ≤
        (checkPendingRelayMessages (applyWorkerOp op s).inbox
          (applyWorkerOp op s).pendingAcks).2.unacknowledgedCount) := by
  have hops : ∀ (ops : List WorkerOp) (s : WorkerState),
      ∃ t, (ops.foldl (fun st op => applyWorkerOp op st) s).pendingAcks
        = s.pendingAcks ++ t := by
    intro ops
    induction ops with
    | nil => intro s; exact ⟨[], by simp⟩
    | cons op rest ih =>
      intro s
      obtain ⟨t1, h1⟩ := applyWorkerOp_pendingAcks op s
      obtain ⟨t2, h2⟩ := ih (applyWorkerOp op s)
      exact ⟨t1 ++ t2, by rw [List.foldl_cons, h2, h1, List.append_assoc]⟩
  refine ⟨?_, applyWorkerOp_pendingAcks, hops, runAux_pendingAcks, ?_⟩
  · intro m s hreq
    have hreq2 : (markViewed s.agentId m).metadata.requiresAcknowledgement = true := by
      rw [(markViewed_metadata s.agentId m).1]
      exact hreq
    unfold receiveIntervention
    dsimp only
    rw [if_pos hreq2]
    split_ifs <;> rfl
  · intro op s
    rw [checkPending_unacknowledgedCount, checkPending_unacknowledgedCount]
    obtain ⟨t, ht⟩ := applyWorkerOp_pendingAcks op s
    rw [ht]
    simp

/-- Witness for C10: a requires-acknowledgement intervention appends its
    id, and a trivial completed run leaves the set unchanged. -/
theorem pending_acknowledgements_never_removed_witness :
    MessageMetadata.requiresAcknowledgement
      { interventionType := some "inject", priority := some 8,
        requiresAcknowledgement := true } = true ∧
    (receiveIntervention
        { id := "mAck", type := RelayType.humanIntervention,
          sourceAgentId := "human", targetAgentIds := [],
          content := "注入信息", importance := 1,
          metadata := { interventionType := some "inject", priority := some 8,
                        requiresAcknowledgement := true } }
        (initialWorkerState "w1")).pendingAcks
      = (initialWorkerState "w1").pendingAcks ++
        [(markViewed (initialWorkerState "w1").agentId
          { id := "mAck", type := RelayType.humanIntervention,
            sourceAgentId := "human", targetAgentIds := [],
            content := "注入信息", importance := 1,
            metadata := { interventionType := some "inject", priority := some 8,
                          requiresAcknowledgement := true } }).id] ∧
    runAux { maxIterations := 0, relayEnabled := true, responses := fun _ => "",
             cancelledAt := fun _ => false, pausedAt := fun _ => false } 1 0 0
        (initialWorkerState "w1")
      = some (finishRun (initialWorkerState "w1")) ∧
    (finishRun (initialWorkerState "w1")).pendingAcks
      = (initialWorkerState "w1").pendingAcks :=
  ⟨rfl,
   pending_acknowledgements_never_removed.1 _ (initialWorkerState "w1") rfl,
   rfl,
   pending_acknowledgements_never_removed.2.2.2.1
     { maxIterations := 0, relayEnabled := true, responses := fun _ => "",
       cancelledAt := fun _ => false, pausedAt := fun _ => false } 1 0 0
     (initialWorkerState "w1") (finishRun (initialWorkerState "w1")) rfl⟩

/-! ## C1 — the worker's cancel flag -/

/-- C1 amended: when the cancel flag is observed set at a top-of-loop
    check, `run` aborts before executing any further iteration (the
    iteration count is unchanged) — but the terminal status written after
    the loop is `completed`, not `cancelled` (`CANCELLED` is only set on
    an asyncio task cancellation, a path the flag never takes). -/
theorem run_cancel_flag_aborts_with_completed_status (env : RunEnv)
    (fuel t iteration : Nat) (s : WorkerState)
    (h : env.cancelledAt t = true) :
    runAux env (fuel + 1) t iteration s = some (finishRun s) ∧
    (finishRun s).iterations = s.iterations ∧
    (finishRun s).status = AgentStatus.completed := by
  refine ⟨?_, rfl, rfl⟩
  simp only [runAux]
  rw [if_neg (by simp [h])]

/-- Witness for C1 on a concrete cancelled worker. -/
theorem run_cancel_flag_aborts_with_completed_status_witness :
    RunEnv.cancelledAt
      { maxIterations := 10, relayEnabled := true, responses := fun _ => "",
        cancelledAt := fun _ => true, pausedAt := fun _ => false } 0 = true ∧
    (runAux { maxIterations := 10, relayEnabled := true, responses := fun _ => "",
              cancelledAt := fun _ => true, pausedAt := fun _ => false } 1 0 0
        (initialWorkerState "w1")
      = some (finishRun (initialWorkerState "w1")) ∧
     (finishRun (initialWorkerState "w1")).iterations
       = (initialWorkerState "w1").iterations ∧
     (finishRun (initialWorkerState "w1")).status = AgentStatus.completed) :=
  ⟨rfl,
   run_cancel_flag_aborts_with_completed_status
     { maxIterations := 10, relayEnabled := true, responses := fun _ => "",
       cancelledAt := fun _ => true, pausedAt := fun _ => false } 0 0 0
     (initialWorkerState "w1") rfl⟩

/-- C1 counterexample: a worker whose cancel flag is set from the first
    check aborts immediately, but `run` ends it with status `completed`,
    not `cancelled`, refuting the claimed terminal status at this input. -/
theorem cancel_flag_terminal_status_not_cancelled :
    (runModel { maxIterations := 10, relayEnabled := true, responses := fun _ => "",
                cancelledAt := fun _ => true, pausedAt := fun _ => false } 1
        (initialWorkerState "w1")).map WorkerState.status
      = some AgentStatus.completed ∧
    ¬ ((runModel { maxIterations := 10, relayEnabled := true, responses := fun _ => "",
                   cancelledAt := fun _ => true, pausedAt := fun _ => false } 1
        (initialWorkerState "w1")).map WorkerState.status
      = some AgentStatus.cancelled) := by
  constructor <;> decide

/-! ## C4 — reaching `max_iterations` without a completion marker -/

/-- Helper: the loop, run on responses that never signal completion and
    with pause and cancel never set, exits by exhausting `max_iterations`
    and ends with status `completed`, the `final_result` untouched, and
    the last produced text held in `partial_result` only. -/
theorem runAux_no_marker (env : RunEnv)
    (hcf : ∀ t, env.cancelledAt t = false) (hpf : ∀ t, env.pausedAt t = false)
    (hr : ∀ i, noCompletionSignal (env.responses i)) :
    ∀ (k t iteration : Nat) (s : WorkerState),
      iteration + k = env.maxIterations →
      ∃ s2, runAux env (k + 1) t iteration s = some s2 ∧
        s2.status = AgentStatus.completed ∧
        s2.finalResult = s.finalResult ∧
        (0 < k → s2.iterations = env.maxIterations ∧
          s2.interimResult = env.responses env.maxIterations) := by
  intro k
  induction k with
  | zero =>
    intro t i s hik
    have hnl : ¬ i < env.maxIterations := by omega
    refine ⟨finishRun s, ?_, rfl, rfl, by omega⟩
    simp only [runAux]
    rw [if_neg (by simp [hnl])]
  | succ k ih =>
    intro t i s hik
    have hlt : i < env.maxIterations := by omega
    have hstep := runIteration_of_noSignal env (i + 1) s (hr (i + 1))
    obtain ⟨s2, h2, hst, hfr, hrest⟩ :=
      ih (t + 1) (i + 1) (runIteration env (i + 1) s).1 (by omega)
    refine ⟨s2, ?_, hst, by rw [hfr, hstep.2.1], ?_⟩
    · simp only [runAux]
      rw [if_pos (by simp [hlt, hcf t]), if_neg (by simp [hpf t])]
      rw [if_neg (by simp [hstep.1])]
      exact h2
    · intro _
      cases Nat.eq_zero_or_pos k with
      | inl hk0 =>
        subst hk0
        have hi : i + 1 = env.maxIterations := by omega
        have hfin : s2 = finishRun (runIteration env (i + 1) s).1 := by
          have h0 := h2
          have hnl2 : ¬ i + 1 < env.maxIterations := by omega
          simp only [runAux] at h0
          rw [if_neg (by simp [hnl2])] at h0
          cases h0
          rfl
        constructor
        · rw [hfin]
          show (runIteration env (i + 1) s).1.iterations = env.maxIterations
          rw [hstep.2.2.1, hi]
        · rw [hfin]
          show (runIteration env (i + 1) s).1.interimResult
            = env.responses env.maxIterations
          rw [hstep.2.2.2.1, hi]
      | inr hkpos =>
        exact hrest hkpos

/-- C4 amended: a worker whose loop reaches `max_iterations` without an
    explicit completion marker ends in status `completed`, but its
    `final_result` remains unset (`None`) — only `partial_result` (and
    `thinking`) hold the last text it produced. -/
theorem max_iterations_completes_with_unset_final_result (env : RunEnv)
    (s : WorkerState)
    (hcf : ∀ t, env.cancelledAt t = false) (hpf : ∀ t, env.pausedAt t = false)
    (hr : ∀ i, noCompletionSignal (env.responses i))
    (hm : 0 < env.maxIterations) (hfr : s.finalResult = none) :
    ∃ s2, runModel env (env.maxIterations + 1) s = some s2 ∧
      s2.status = AgentStatus.completed ∧
      s2.finalResult = none ∧
      s2.iterations = env.maxIterations ∧
      s2.interimResult = env.responses env.maxIterations := by
  obtain ⟨s2, h2, hst, hfr2, hrest⟩ :=
    runAux_no_marker env hcf hpf hr env.maxIterations 0 0
      { s with status := AgentStatus.running,
               messages := [LogEntry.system, LogEntry.userTask] } (by omega)
  obtain ⟨hit, hpr⟩ := hrest hm
  exact ⟨s2, h2, hst, by rw [hfr2]; exact hfr, hit, hpr⟩

/-- Witness for C4: a two-iteration worker whose responses are the
    marker-free text 分析中. -/
theorem max_iterations_completes_with_unset_final_result_witness :
    (∀ t, RunEnv.cancelledAt
      { maxIterations := 2, relayEnabled := true, responses := fun _ => "分析中",
        cancelledAt := fun _ => false, pausedAt := fun _ => false } t = false) ∧
    (0 : Nat) < 2 ∧
    (∃ s2, runModel
        { maxIterations := 2, relayEnabled := true, responses := fun _ => "分析中",
          cancelledAt := fun _ => false, pausedAt := fun _ => false } 3
        (initialWorkerState "w1") = some s2 ∧
      s2.status = AgentStatus.completed ∧
      s2.finalResult = none ∧
      s2.iterations = 2 ∧
      s2.interimResult = "分析中") :=
  ⟨fun _ => rfl, by decide,
   max_iterations_completes_with_unset_final_result
     { maxIterations := 2, relayEnabled := true, responses := fun _ => "分析中",
       cancelledAt := fun _ => false, pausedAt := fun _ => false }
     (initialWorkerState "w1") (fun _ => rfl) (fun _ => rfl)
     (fun _ => ⟨by
        show ∀ m ∈ strictCompletionMarkers, strContains "分析中" m = false
        decide,
      by
        show ("分析中" : String).length ≤ 800
        decide⟩) (by decide) rfl⟩

/-- C4 counterexample: the same two-iteration worker ends `completed`, and
    its `final_result` is `None` — not the last text 分析中 it produced
    (which survives only in `partial_result`), refuting the claimed
    equality at this input. -/
theorem max_iterations_final_result_remains_none :
    (runModel { maxIterations := 2, relayEnabled := true, responses := fun _ => "分析中",
                cancelledAt := fun _ => false, pausedAt := fun _ => false } 3
        (initialWorkerState "w1")).map WorkerState.status
      = some AgentStatus.completed ∧
    (runModel { maxIterations := 2, relayEnabled := true, responses := fun _ => "分析中",
                cancelledAt := fun _ => false, pausedAt := fun _ => false } 3
        (initialWorkerState "w1")).map WorkerState.interimResult = some "分析中" ∧
    (runModel { maxIterations := 2, relayEnabled := true, responses := fun _ => "分析中",
                cancelledAt := fun _ => false, pausedAt := fun _ => false } 3
        (initialWorkerState "w1")).map WorkerState.finalResult = some none ∧
    ¬ ((runModel { maxIterations := 2, relayEnabled := true, responses := fun _ => "分析中",
                   cancelledAt := fun _ => false, pausedAt := fun _ => false } 3
        (initialWorkerState "w1")).map WorkerState.finalResult
      = some (some "分析中")) := by
  refine ⟨?_, ?_, ?_, ?_⟩ <;> decide

end AgentSwarm
